import Mathlib

/-!
Verification development for the `greedy-chess` engine core (`src/board.rs`,
`src/evaluate.rs`).  The Rust code is shallowly embedded: the board is a
64-entry list of optional pieces, machine integers become `Nat`/`Int`,
fallible paths (`Result`) become `Except`, and places where the Rust code
panics (`expect`/`unwrap`/out-of-bounds array indexing) are modelled by an
outer `Option` whose `none` marks the panic.  Strings are modelled at the
character level (`List Char`); the tokens of interest are ASCII, where the
Rust byte-level operations and the character-level ones agree.
-/

namespace Chess

/-- Decidable equality for `Except`, needed to evaluate parser results. -/
instance {ε α : Type} [DecidableEq ε] [DecidableEq α] : DecidableEq (Except ε α)
  | Except.error e, Except.error e' =>
    if h : e = e' then isTrue (by rw [h])
    else isFalse (by intro hc; cases hc; exact h rfl)
  | Except.error _, Except.ok _ => isFalse (by intro hc; cases hc)
  | Except.ok _, Except.error _ => isFalse (by intro hc; cases hc)
  | Except.ok a, Except.ok a' =>
    if h : a = a' then isTrue (by rw [h])
    else isFalse (by intro hc; cases hc; exact h rfl)

/-- Piece colors, as in `board.rs`. -/
inductive Color where
  | White
  | Black
deriving DecidableEq, Repr

/-- Piece kinds, as in `board.rs`. -/
inductive Kind where
  | Pawn
  | Knight
  | Bishop
  | Rook
  | Queen
  | King
deriving DecidableEq, Repr

/-- A piece: kind and color. -/
structure Piece where
  kind : Kind
  color : Color
deriving DecidableEq, Repr

/-- A move, mirroring `struct Move` (the Rust field `from` is a Lean
keyword, hence `from_`). -/
structure Move where
  from_ : Nat
  to_ : Nat
  promo : Option Kind
  is_capture : Bool
  is_en_passant : Bool
  is_castle_kingside : Bool
  is_castle_queenside : Bool
deriving DecidableEq, Repr

/-- The board state, mirroring `struct Board`.  `sq` models the Rust array
`[Option<Piece>; 64]`; boards produced by the embedded code always keep its
length at 64. -/
structure Board where
  sq : List (Option Piece)
  side : Color
  castle_wk : Bool
  castle_wq : Bool
  castle_bk : Bool
  castle_bq : Bool
  ep_square : Option Nat
  halfmove_clock : Nat
  fullmove_number : Nat
deriving DecidableEq, Repr

open Color Kind

/-- Board index from file and rank (`fn idx`). -/
def idx (file rank : Nat) : Nat := rank * 8 + file

/-- File of a board index (`fn file_of`). -/
def file_of (i : Nat) : Nat := i % 8

/-- Rank of a board index (`fn rank_of`). -/
def rank_of (i : Nat) : Nat := i / 8

/-- Bounds check on signed file/rank (`fn in_bounds`). -/
def in_bounds (file rank : Int) : Bool := 0 ≤ file && file < 8 && 0 ≤ rank && rank < 8

/-- Signed index computation (`fn to_idx`).  The Rust code casts `isize` to
`usize`; a negative coordinate wraps to a huge index, which any later array
access turns into a panic.  We model the wrap by the out-of-range index
10000, which every bounds-checked board access below rejects. -/
def to_idxN (file rank : Int) : Nat :=
  if 0 ≤ file ∧ 0 ≤ rank then (rank * 8 + file).toNat else 10000

/-- Flip a color (`fn other`). -/
def other (c : Color) : Color :=
  match c with
  | White => Black
  | Black => White

/-- Read a square (`fn piece_at`).  Rust indexes the 64-array directly; for
in-range indices this is `getD`, and an out-of-range read feeds the
panic-modelling paths of the callers. -/
def pieceAt (B : Board) (i : Nat) : Option Piece := B.sq.getD i none

/-- Write a square (`fn set_piece`); `none` result models the Rust panic on
an out-of-range array index. -/
def setPiece? (B : Board) (i : Nat) (p : Option Piece) : Option Board :=
  if i < 64 then some { B with sq := B.sq.set i p } else none

/-- The initial position (`Board::new`). -/
def Board.new : Board :=
  let back : List Kind := [Rook, Knight, Bishop, Queen, King, Bishop, Knight, Rook]
  let sq := (List.range 64).map (fun i =>
    let f := file_of i
    let r := rank_of i
    if r = 0 then some ⟨back.getD f Rook, White⟩
    else if r = 1 then some ⟨Pawn, White⟩
    else if r = 6 then some ⟨Pawn, Black⟩
    else if r = 7 then some ⟨back.getD f Rook, Black⟩
    else none)
  { sq := sq, side := White,
    castle_wk := true, castle_wq := true, castle_bk := true, castle_bq := true,
    ep_square := none, halfmove_clock := 0, fullmove_number := 1 }

/-- The metadata updates at the tail of `make_move`: castling rights,
en-passant target, halfmove clock, fullmove counter, side to move.  `moved`
is the moved piece after the promotion overwrite (the Rust local `moved`
at that point).  The sequential `if` clears of the castling flags are
rendered as one boolean expression per flag. -/
def updateMeta (B : Board) (m : Move) (moved : Piece) : Board :=
  let B1 :=
    match moved.color with
    | White =>
      { B with
        castle_wk := B.castle_wk && !(m.from_ == idx 4 0) && !(m.from_ == idx 7 0 || m.to_ == idx 7 0),
        castle_wq := B.castle_wq && !(m.from_ == idx 4 0) && !(m.from_ == idx 0 0 || m.to_ == idx 0 0),
        castle_bq := B.castle_bq && !(m.to_ == idx 0 7),
        castle_bk := B.castle_bk && !(m.to_ == idx 7 7) }
    | Black =>
      { B with
        castle_bk := B.castle_bk && !(m.from_ == idx 4 7) && !(m.from_ == idx 7 7 || m.to_ == idx 7 7),
        castle_bq := B.castle_bq && !(m.from_ == idx 4 7) && !(m.from_ == idx 0 7 || m.to_ == idx 0 7),
        castle_wq := B.castle_wq && !(m.to_ == idx 0 0),
        castle_wk := B.castle_wk && !(m.to_ == idx 7 0) }
  let ep : Option Nat :=
    if moved.kind = Pawn then
      let r_from : Int := rank_of m.from_
      let r_to : Int := rank_of m.to_
      if (r_from - r_to).natAbs = 2 then
        some (to_idxN (file_of m.from_) ((r_from + r_to) / 2))
      else none
    else none
  let half : Nat := if moved.kind = Pawn || m.is_capture then 0 else B.halfmove_clock + 1
  let full : Nat := if B.side = Black then B.fullmove_number + 1 else B.fullmove_number
  { B1 with ep_square := ep, halfmove_clock := half,
            fullmove_number := full, side := other B.side }

/-- The piece-placement phase of `fn make_move`: the three mutually
exclusive shapes (en passant / castle / normal), followed by the promotion
overwrite of the destination square.  `moved0` is the piece read from the
source square; `none` models the panics (`unwrap`s and out-of-range
square writes). -/
def placePieces (B : Board) (m : Move) (moved0 : Piece) : Option Board := do
  let B1 ←
    if m.is_en_passant then do
      let Ba ← setPiece? B m.to_ (some moved0)
      let Bb ← setPiece? Ba m.from_ none
      let dir : Int := if moved0.color = White then -1 else 1
      let cap_sq := to_idxN (file_of m.to_) ((rank_of m.to_ : Int) + dir)
      setPiece? Bb cap_sq none
    else if m.is_castle_kingside || m.is_castle_queenside then do
      let (k_from, k_to, r_from, r_to) :=
        if moved0.color = White then
          if m.is_castle_kingside then (idx 4 0, idx 6 0, idx 7 0, idx 5 0)
          else (idx 4 0, idx 2 0, idx 0 0, idx 3 0)
        else
          if m.is_castle_kingside then (idx 4 7, idx 6 7, idx 7 7, idx 5 7)
          else (idx 4 7, idx 2 7, idx 0 7, idx 3 7)
      let king ← pieceAt B k_from
      let Ba ← setPiece? B k_from none
      let Bb ← setPiece? Ba k_to (some king)
      let rook ← pieceAt Bb r_from
      let Bc ← setPiece? Bb r_from none
      setPiece? Bc r_to (some rook)
    else do
      let Ba ← setPiece? B m.to_ (some moved0)
      setPiece? Ba m.from_ none
  match m.promo with
  | some pk => setPiece? B1 m.to_ (some { moved0 with kind := pk })
  | none => pure B1

/-- Apply a move (`fn make_move`): read the source piece (panic when the
square is empty, modelled by `none`), place the pieces, then run the
metadata updates with the possibly promotion-overwritten piece. -/
def make_move (B : Board) (m : Move) : Option Board :=
  match pieceAt B m.from_ with
  | none => none
  | some moved0 =>
    (placePieces B m moved0).map (fun B2 =>
      updateMeta B2 m
        (match m.promo with
         | some pk => { moved0 with kind := pk }
         | none => moved0))

/-- Walk from `from_` one step at a time in direction `(df, dr)` and check
that every square before `to_` is empty (`fn line_clear`).  At most 8 steps
can stay on the board, so the walk is given fuel 8. -/
def line_clear (B : Board) (from_ to_ : Nat) (df dr : Int) : Bool :=
  let rec go : Nat → Int → Int → Bool
    | 0, _, _ => false
    | fuel + 1, f, r =>
      if in_bounds f r then
        let cur := to_idxN f r
        if cur = to_ then true
        else if (pieceAt B cur).isSome then false
        else go fuel (f + df) (r + dr)
      else false
  go 8 ((file_of from_ : Int) + df) ((rank_of from_ : Int) + dr)

/-- Can the piece on `from_` attack `to_` (`fn can_attack`)? -/
def can_attack (B : Board) (from_ to_ : Nat) : Bool :=
  if from_ = to_ then false
  else
    match pieceAt B from_ with
    | none => false
    | some piece =>
      match piece.kind with
      | Pawn =>
        let forward : Int := if piece.color = White then 1 else -1
        (rank_of to_ : Int) = (rank_of from_ : Int) + forward &&
          ((file_of to_ : Int) - (file_of from_ : Int)).natAbs = 1
      | Knight =>
        let df := ((file_of from_ : Int) - (file_of to_ : Int)).natAbs
        let dr := ((rank_of from_ : Int) - (rank_of to_ : Int)).natAbs
        (df = 1 && dr = 2) || (df = 2 && dr = 1)
      | King =>
        let df := ((file_of from_ : Int) - (file_of to_ : Int)).natAbs
        let dr := ((rank_of from_ : Int) - (rank_of to_ : Int)).natAbs
        df ≤ 1 && dr ≤ 1
      | Bishop =>
        let df := (file_of to_ : Int) - (file_of from_ : Int)
        let dr := (rank_of to_ : Int) - (rank_of from_ : Int)
        if df.natAbs ≠ dr.natAbs ∨ df = 0 then false
        else line_clear B from_ to_ df.sign dr.sign
      | Rook =>
        let df := (file_of to_ : Int) - (file_of from_ : Int)
        let dr := (rank_of to_ : Int) - (rank_of from_ : Int)
        if ¬ (df = 0 ∨ dr = 0) then false
        else if df = 0 ∧ dr = 0 then false
        else line_clear B from_ to_ df.sign dr.sign
      | Queen =>
        let df := (file_of to_ : Int) - (file_of from_ : Int)
        let dr := (rank_of to_ : Int) - (rank_of from_ : Int)
        if ¬ (df = 0 ∨ dr = 0 ∨ df.natAbs = dr.natAbs) then false
        else line_clear B from_ to_ df.sign dr.sign

/-- Is `square` attacked by any piece of `by_color`
(`fn is_square_attacked`)? -/
def is_square_attacked (B : Board) (square : Nat) (by_color : Color) : Bool :=
  (List.range 64).any (fun from_ =>
    match pieceAt B from_ with
    | some piece => piece.color = by_color && can_attack B from_ square
    | none => false)

/-- Position of the first king of `color` in scan order (`fn find_king`). -/
def find_king (B : Board) (color : Color) : Option Nat :=
  (List.range 64).find? (fun i => pieceAt B i = some ⟨King, color⟩)

/-- Legality of a pseudo-legal move (`fn is_legal_move`): play the move on
a clone and require the mover's king to exist and be unattacked.  A `none`
from `make_move` is a Rust panic; such a move never passes the filter. -/
def is_legal_move (B : Board) (m : Move) : Bool :=
  match make_move B m with
  | none => false
  | some temp =>
    match find_king temp B.side with
    | some king_square => !(is_square_attacked temp king_square (other B.side))
    | none => false

/-- Pawn pseudo-moves from `from_` (`fn generate_pawn_moves`); the returned
list preserves the push order of the Rust code.  The `unwrap` of `piece_at`
is total here because the caller only dispatches on occupied squares. -/
def generate_pawn_moves (B : Board) (from_ : Nat) : List Move :=
  match pieceAt B from_ with
  | none => []
  | some piece =>
    let forward : Int := if piece.color = White then 1 else -1
    let start_rank : Nat := if piece.color = White then 1 else 6
    let promo_rank : Nat := if piece.color = White then 7 else 0
    let f : Int := file_of from_
    let r : Int := rank_of from_
    let to_r := r + forward
    let pushes : List Move :=
      if in_bounds f to_r then
        let to_ := to_idxN f to_r
        if pieceAt B to_ = none then
          if rank_of to_ = promo_rank then
            [Queen, Rook, Bishop, Knight].map (fun pk =>
              ⟨from_, to_, some pk, false, false, false, false⟩)
          else
            ⟨from_, to_, none, false, false, false, false⟩ ::
              (if rank_of from_ = start_rank then
                let to2 := to_idxN f (to_r + forward)
                if in_bounds f (to_r + forward) && (pieceAt B to2).isNone then
                  [⟨from_, to2, none, false, false, false, false⟩]
                else []
              else [])
        else []
      else []
    let captures : List Move :=
      ([-1, 1] : List Int).flatMap (fun df =>
        if in_bounds (f + df) to_r then
          let to_ := to_idxN (f + df) to_r
          let is_capture := (pieceAt B to_).isSome
          let is_ep := !is_capture && some to_ == B.ep_square
          if is_capture || is_ep then
            if rank_of to_ = promo_rank then
              [Queen, Rook, Bishop, Knight].map (fun pk =>
                ⟨from_, to_, some pk, true, is_ep, false, false⟩)
            else
              [⟨from_, to_, none, true, is_ep, false, false⟩]
          else []
        else [])
    pushes ++ captures

/-- Knight pseudo-moves (`fn generate_knight_moves`). -/
def generate_knight_moves (B : Board) (from_ : Nat) : List Move :=
  let f : Int := file_of from_
  let r : Int := rank_of from_
  ([(-2, -1), (-2, 1), (-1, -2), (-1, 2), (1, -2), (1, 2), (2, -1), (2, 1)] :
      List (Int × Int)).flatMap (fun (d : Int × Int) =>
    if in_bounds (f + d.1) (r + d.2) then
      let to_ := to_idxN (f + d.1) (r + d.2)
      match pieceAt B to_ with
      | some target =>
        if target.color ≠ B.side then
          [⟨from_, to_, none, true, false, false, false⟩]
        else []
      | none => [⟨from_, to_, none, false, false, false, false⟩]
    else [])

/-- One ray of a sliding piece (`fn generate_sliding_moves`, inner while
loop); fuel 8 covers the at most 7 on-board steps. -/
def slideRay (B : Board) (from_ : Nat) (df dr : Int) : List Move :=
  let rec go : Nat → Int → Int → List Move
    | 0, _, _ => []
    | fuel + 1, f, r =>
      if in_bounds f r then
        let to_ := to_idxN f r
        match pieceAt B to_ with
        | some target =>
          if target.color ≠ B.side then
            [⟨from_, to_, none, true, false, false, false⟩]
          else []
        | none =>
          ⟨from_, to_, none, false, false, false, false⟩ :: go fuel (f + df) (r + dr)
      else []
  go 8 ((file_of from_ : Int) + df) ((rank_of from_ : Int) + dr)

/-- Sliding pseudo-moves along a list of directions
(`fn generate_sliding_moves`). -/
def generate_sliding_moves (B : Board) (from_ : Nat) (directions : List (Int × Int)) :
    List Move :=
  directions.flatMap (fun d => slideRay B from_ d.1 d.2)

/-- Bishop pseudo-moves (`fn generate_bishop_moves`). -/
def generate_bishop_moves (B : Board) (from_ : Nat) : List Move :=
  generate_sliding_moves B from_ [(-1, -1), (-1, 1), (1, -1), (1, 1)]

/-- Rook pseudo-moves (`fn generate_rook_moves`). -/
def generate_rook_moves (B : Board) (from_ : Nat) : List Move :=
  generate_sliding_moves B from_ [(-1, 0), (1, 0), (0, -1), (0, 1)]

/-- Queen pseudo-moves (`fn generate_queen_moves`). -/
def generate_queen_moves (B : Board) (from_ : Nat) : List Move :=
  generate_sliding_moves B from_
    [(-1, -1), (-1, 0), (-1, 1), (0, -1), (0, 1), (1, -1), (1, 0), (1, 1)]

/-- Kingside castle precondition (`fn can_castle_kingside`): f and g empty,
e, f, g unattacked by the opponent. -/
def can_castle_kingside (B : Board) (color : Color) : Bool :=
  let rank : Nat := if color = White then 0 else 7
  (pieceAt B (idx 5 rank)).isNone && (pieceAt B (idx 6 rank)).isNone &&
    !(is_square_attacked B (idx 4 rank) (other color)) &&
    !(is_square_attacked B (idx 5 rank) (other color)) &&
    !(is_square_attacked B (idx 6 rank) (other color))

/-- Queenside castle precondition (`fn can_castle_queenside`): b, c, d
empty, c, d, e unattacked by the opponent. -/
def can_castle_queenside (B : Board) (color : Color) : Bool :=
  let rank : Nat := if color = White then 0 else 7
  (pieceAt B (idx 1 rank)).isNone && (pieceAt B (idx 2 rank)).isNone &&
    (pieceAt B (idx 3 rank)).isNone &&
    !(is_square_attacked B (idx 2 rank) (other color)) &&
    !(is_square_attacked B (idx 3 rank) (other color)) &&
    !(is_square_attacked B (idx 4 rank) (other color))

/-- The plain one-step king moves of `fn generate_king_moves` (the nested
`df`/`dr` loops, `df` outer, skipping `(0,0)`). -/
def kingStepMoves (B : Board) (from_ : Nat) : List Move :=
  let f : Int := file_of from_
  let r : Int := rank_of from_
  ([(-1, -1), (-1, 0), (-1, 1), (0, -1), (0, 1), (1, -1), (1, 0), (1, 1)] :
      List (Int × Int)).flatMap (fun (d : Int × Int) =>
    if in_bounds (f + d.1) (r + d.2) then
      let to_ := to_idxN (f + d.1) (r + d.2)
      match pieceAt B to_ with
      | some target =>
        if target.color ≠ B.side then
          [⟨from_, to_, none, true, false, false, false⟩]
        else []
      | none => [⟨from_, to_, none, false, false, false, false⟩]
    else [])

/-- King pseudo-moves including castling (`fn generate_king_moves`). -/
def generate_king_moves (B : Board) (from_ : Nat) : List Move :=
  kingStepMoves B from_ ++
    (if B.side = White then
      (if B.castle_wk && can_castle_kingside B White then
        [⟨from_, idx 6 0, none, false, false, true, false⟩] else []) ++
      (if B.castle_wq && can_castle_queenside B White then
        [⟨from_, idx 2 0, none, false, false, false, true⟩] else [])
    else
      (if B.castle_bk && can_castle_kingside B Black then
        [⟨from_, idx 6 7, none, false, false, true, false⟩] else []) ++
      (if B.castle_bq && can_castle_queenside B Black then
        [⟨from_, idx 2 7, none, false, false, false, true⟩] else []))

/-- The pseudo-legal move list built by the scan loop of
`fn generate_legal_moves`, before the legality filter. -/
def generate_pseudo_moves (B : Board) : List Move :=
  (List.range 64).flatMap (fun from_ =>
    match pieceAt B from_ with
    | some piece =>
      if piece.color = B.side then
        match piece.kind with
        | Pawn => generate_pawn_moves B from_
        | Knight => generate_knight_moves B from_
        | Bishop => generate_bishop_moves B from_
        | Rook => generate_rook_moves B from_
        | Queen => generate_queen_moves B from_
        | King => generate_king_moves B from_
      else []
    | none => [])

/-- All legal moves (`fn generate_legal_moves`): pseudo-legal moves that
pass the king-safety filter. -/
def generate_legal_moves (B : Board) : List Move :=
  (generate_pseudo_moves B).filter (fun m => is_legal_move B m)

/-- Checkmate test (`fn is_checkmate`). -/
def is_checkmate (B : Board) : Bool :=
  match find_king B B.side with
  | some king_square =>
    is_square_attacked B king_square (other B.side) &&
      (generate_legal_moves B).isEmpty
  | none => false

/-- Stalemate test (`fn is_stalemate`). -/
def is_stalemate (B : Board) : Bool :=
  match find_king B B.side with
  | some king_square =>
    !(is_square_attacked B king_square (other B.side)) &&
      (generate_legal_moves B).isEmpty
  | none => false

/-- Game-over test (`fn is_game_over`). -/
def is_game_over (B : Board) : Bool :=
  is_checkmate B || is_stalemate B

/-- The board's built-in evaluation (`Board::evaluate` in `board.rs`):
signed material sum with pawn=1, knight=bishop=3, rook=5, queen=9,
king=999. -/
def Board.evaluate (B : Board) : Int :=
  (List.range 64).foldl (fun score i =>
    match pieceAt B i with
    | some piece =>
      let value : Int :=
        match piece.kind with
        | Pawn => 1
        | Knight => 3
        | Bishop => 3
        | Rook => 5
        | Queen => 9
        | King => 999
      match piece.color with
      | White => score + value
      | Black => score - value
    | none => score) 0

/-- One step of the move loops inside `fn minimax`: fold the remaining
moves, combining child values with `better` (`max` for the maximizing
player, `min` otherwise) and propagating a `none` (deadline hit) exactly
as the Rust `?` operator does.  `f` is the recursion at depth − 1; the
`none` arm of `make_move` models the Rust panic and cannot fire for moves
coming from `generate_legal_moves`. -/
def mmFold (f : Board → Nat → Option Int × Nat) (B : Board)
    (better : Int → Int → Int) : List Move → Int → Nat → Option Int × Nat
  | [], best, tick => (some best, tick)
  | m :: ms, best, tick =>
    match make_move B m with
    | none => (none, tick)
    | some B' =>
      match f B' tick with
      | (none, tick') => (none, tick')
      | (some v, tick') => mmFold f B better ms (better best v) tick'

/-- Plain minimax (`fn minimax`).  The wall clock is modelled by the
oracle `t`: the k-th evaluation of `start_time.elapsed() >= timeout`
during the search returns `t k`, and the `Nat` threaded through is the
index of the next check.  `none` is the Rust `None` (deadline hit). -/
def minimax : Nat → Board → Bool → (Nat → Bool) → Nat → Option Int × Nat
  | depth, B, maximizing, t, tick =>
    if t tick then (none, tick + 1)
    else
      let tk := tick + 1
      if depth = 0 ∨ is_game_over B then
        (if is_checkmate B then some (if maximizing then (-100000 : Int) else 100000)
         else if is_stalemate B then some 0
         else some (Board.evaluate B), tk)
      else
        match depth with
        | 0 => (some (Board.evaluate B), tk)
        | d + 1 =>
          let moves := generate_legal_moves B
          if moves.isEmpty then
            (some (if maximizing then (-100000 : Int) else 100000), tk)
          else if maximizing then
            mmFold (fun B' tk' => minimax d B' false t tk') B
              (fun a b => max a b) moves (-100001) tk
          else
            mmFold (fun B' tk' => minimax d B' true t tk') B
              (fun a b => min a b) moves 100001 tk

/-- The root-move loop of `fn search_at_depth`: before each root move the
deadline oracle is consulted; a strict improvement replaces the best move.
-/
def sadFold (B : Board) (depth : Nat) (maximizing : Bool) (t : Nat → Bool) :
    List Move → Move → Int → Nat → Option Move × Nat
  | [], best_move, _, tick => (some best_move, tick)
  | m :: ms, best_move, best_eval, tick =>
    if t tick then (none, tick + 1)
    else
      match make_move B m with
      | none => (none, tick + 1)
      | some B' =>
        match minimax (depth - 1) B' (!maximizing) t (tick + 1) with
        | (none, tick') => (none, tick')
        | (some eval, tick') =>
          if maximizing ∧ eval > best_eval then
            sadFold B depth maximizing t ms m eval tick'
          else if ¬ maximizing ∧ eval < best_eval then
            sadFold B depth maximizing t ms m eval tick'
          else
            sadFold B depth maximizing t ms best_move best_eval tick'

/-- Fixed-depth root search (`fn search_at_depth`): `none` when the
deadline fired inside this depth. -/
def search_at_depth (B : Board) (depth : Nat) (t : Nat → Bool) (tick : Nat) :
    Option Move × Nat :=
  match generate_legal_moves B with
  | [] => (none, tick)
  | m0 :: ms =>
    let maximizing := B.side = White
    sadFold B depth maximizing t (m0 :: ms) m0
      (if maximizing then (-100001 : Int) else 100001) tick

/-- The iterative-deepening loop of `fn find_best_move`.  The Rust loop
terminates only when the deadline fires; `fuel` bounds the number of loop
iterations so the model is total, returning the current best on
exhaustion. -/
def fbmLoop (B : Board) (t : Nat → Bool) : Nat → Move → Nat → Nat → Move
  | 0, best, _, _ => best
  | fuel + 1, best, depth, tick =>
    match search_at_depth B depth t tick with
    | (none, _) => best
    | (some result, tick') =>
      if t tick' then result
      else fbmLoop B t fuel result (depth + 1) (tick' + 1)

/-- Iterative-deepening search (`fn find_best_move`): `none` exactly when
there is no legal move; otherwise the loop starts from the first legal
move and deepens until the deadline (or the fuel) runs out. -/
def find_best_move (B : Board) (t : Nat → Bool) (tick fuel : Nat) : Option Move :=
  match generate_legal_moves B with
  | [] => none
  | m0 :: _ => some (fbmLoop B t fuel m0 1 tick)

/-! Model of `src/evaluate.rs`.  The global `EVALUATOR_TYPE` atomic is
modelled as an explicit `mode` argument of the dispatcher (0 = Advanced,
the default, 1 = Classic). -/

/-- Piece-square table for pawns (`PAWN_TABLE`). -/
def PAWN_TABLE : List Int :=
  [0, 0, 0, 0, 0, 0, 0, 0,
   50, 50, 50, 50, 50, 50, 50, 50,
   10, 10, 20, 30, 30, 20, 10, 10,
   5, 5, 10, 25, 25, 10, 5, 5,
   0, 0, 0, 20, 20, 0, 0, 0,
   5, -5, -10, 0, 0, -10, -5, 5,
   5, 10, 10, -20, -20, 10, 10, 5,
   0, 0, 0, 0, 0, 0, 0, 0]

/-- Piece-square table for knights (`KNIGHT_TABLE`). -/
def KNIGHT_TABLE : List Int :=
  [-50, -40, -30, -30, -30, -30, -40, -50,
   -40, -20, 0, 0, 0, 0, -20, -40,
   -30, 0, 10, 15, 15, 10, 0, -30,
   -30, 5, 15, 20, 20, 15, 5, -30,
   -30, 0, 15, 20, 20, 15, 0, -30,
   -30, 5, 10, 15, 15, 10, 5, -30,
   -40, -20, 0, 5, 5, 0, -20, -40,
   -50, -40, -30, -30, -30, -30, -40, -50]

/-- Piece-square table for bishops (`BISHOP_TABLE`). -/
def BISHOP_TABLE : List Int :=
  [-20, -10, -10, -10, -10, -10, -10, -20,
   -10, 0, 0, 0, 0, 0, 0, -10,
   -10, 0, 5, 10, 10, 5, 0, -10,
   -10, 5, 5, 10, 10, 5, 5, -10,
   -10, 0, 10, 10, 10, 10, 0, -10,
   -10, 10, 10, 10, 10, 10, 10, -10,
   -10, 5, 0, 0, 0, 0, 5, -10,
   -20, -10, -10, -10, -10, -10, -10, -20]

/-- Piece-square table for rooks (`ROOK_TABLE`). -/
def ROOK_TABLE : List Int :=
  [0, 0, 0, 0, 0, 0, 0, 0,
   5, 10, 10, 10, 10, 10, 10, 5,
   -5, 0, 0, 0, 0, 0, 0, -5,
   -5, 0, 0, 0, 0, 0, 0, -5,
   -5, 0, 0, 0, 0, 0, 0, -5,
   -5, 0, 0, 0, 0, 0, 0, -5,
   -5, 0, 0, 0, 0, 0, 0, -5,
   0, 0, 0, 5, 5, 0, 0, 0]

/-- Piece-square table for queens (`QUEEN_TABLE`). -/
def QUEEN_TABLE : List Int :=
  [-20, -10, -10, -5, -5, -10, -10, -20,
   -10, 0, 0, 0, 0, 0, 0, -10,
   -10, 0, 5, 5, 5, 5, 0, -10,
   -5, 0, 5, 5, 5, 5, 0, -5,
   0, 0, 5, 5, 5, 5, 0, -5,
   -10, 5, 5, 5, 5, 5, 0, -10,
   -10, 0, 5, 0, 0, 0, 0, -10,
   -20, -10, -10, -5, -5, -10, -10, -20]

/-- Piece-square table for the middlegame king (`KING_MIDDLEGAME_TABLE`).
-/
def KING_MIDDLEGAME_TABLE : List Int :=
  [-30, -40, -40, -50, -50, -40, -40, -30,
   -30, -40, -40, -50, -50, -40, -40, -30,
   -30, -40, -40, -50, -50, -40, -40, -30,
   -30, -40, -40, -50, -50, -40, -40, -30,
   -20, -30, -30, -40, -40, -30, -30, -20,
   -10, -20, -20, -20, -20, -20, -20, -10,
   20, 20, 0, 0, 0, 0, 20, 20,
   20, 30, 10, 0, 0, 10, 30, 20]

/-- Piece-square table for the endgame king (`KING_ENDGAME_TABLE`). -/
def KING_ENDGAME_TABLE : List Int :=
  [-50, -40, -30, -20, -20, -30, -40, -50,
   -30, -20, -10, 0, 0, -10, -20, -30,
   -30, -10, 20, 30, 30, 20, -10, -30,
   -30, -10, 30, 40, 40, 30, -10, -30,
   -30, -10, 30, 40, 40, 30, -10, -30,
   -30, -10, 20, 30, 30, 20, -10, -30,
   -30, -30, 0, 0, 0, 0, -30, -30,
   -50, -30, -30, -30, -30, -30, -30, -50]

/-- Material values in centipawns (`fn get_piece_value`). -/
def get_piece_value (kind : Kind) : Int :=
  match kind with
  | Pawn => 100
  | Knight => 320
  | Bishop => 330
  | Rook => 500
  | Queen => 900
  | King => 20000

/-- Positional value of a piece on a square (`fn get_positional_value`):
Black uses the vertically mirrored index `square ^^^ 56`; the king table
depends on the `is_endgame` flag. -/
def get_positional_value (piece : Piece) (square : Nat) (is_endgame : Bool) : Int :=
  let index := if piece.color = White then square else square ^^^ 56
  match piece.kind with
  | Pawn => PAWN_TABLE.getD index 0
  | Knight => KNIGHT_TABLE.getD index 0
  | Bishop => BISHOP_TABLE.getD index 0
  | Rook => ROOK_TABLE.getD index 0
  | Queen => QUEEN_TABLE.getD index 0
  | King =>
    if is_endgame then KING_ENDGAME_TABLE.getD index 0
    else KING_MIDDLEGAME_TABLE.getD index 0

/-- Classic evaluation (`fn evaluate_classic`): same signed material sum
as `Board::evaluate`. -/
def evaluate_classic (B : Board) : Int :=
  (List.range 64).foldl (fun score i =>
    match pieceAt B i with
    | some piece =>
      let value : Int :=
        match piece.kind with
        | Pawn => 1
        | Knight => 3
        | Bishop => 3
        | Rook => 5
        | Queen => 9
        | King => 999
      match piece.color with
      | White => score + value
      | Black => score - value
    | none => score) 0

/-- Advanced evaluation (`fn evaluate_advanced`).  The accumulator mirrors
the Rust locals `(score, piece_count, white_bishops, black_bishops)`; note
that the endgame flag passed to `get_positional_value` uses the running
`piece_count`, incremented just before the call. -/
def evaluate_advanced (B : Board) : Int :=
  let st : Int × Nat × Nat × Nat :=
    (List.range 64).foldl (fun (acc : Int × Nat × Nat × Nat) i =>
      match pieceAt B i with
      | none => acc
      | some piece =>
        let (score, piece_count, white_bishops, black_bishops) := acc
        let piece_count := piece_count + 1
        let material_value := get_piece_value piece.kind
        let positional_value :=
          get_positional_value piece i (decide (piece_count ≤ 14))
        let total_value := material_value + positional_value
        match piece.color with
        | White =>
          (score + total_value, piece_count,
           if piece.kind = Bishop then white_bishops + 1 else white_bishops,
           black_bishops)
        | Black =>
          (score - total_value, piece_count, white_bishops,
           if piece.kind = Bishop then black_bishops + 1 else black_bishops))
      (0, 0, 0, 0)
  let score := st.1
  let score := if st.2.2.1 ≥ 2 then score + 50 else score
  let score := if st.2.2.2 ≥ 2 then score - 50 else score
  let score := if B.castle_wk || B.castle_wq then score + 15 else score
  let score := if B.castle_bk || B.castle_bq then score - 15 else score
  score

/-- The dispatching evaluation of `evaluate.rs` (`fn evaluate`); the
global `EVALUATOR_TYPE` is the `mode` argument (0 = Advanced default,
1 = Classic). -/
def evaluate_mode (mode : Nat) (B : Board) : Int :=
  if mode = 1 then evaluate_classic B else evaluate_advanced B

/-- Modelled from the spec: the transformation of the evaluation-symmetry
property — swap the color of every piece and mirror the ranks (square `i`
goes to `i ^^^ 56`), which correspondingly flips the side to move, swaps
White's and Black's castling rights, and mirrors the en-passant square. -/
def mirrorBoard (B : Board) : Board :=
  { sq := (List.range 64).map (fun i =>
      (pieceAt B (i ^^^ 56)).map (fun p => ⟨p.kind, other p.color⟩)),
    side := other B.side,
    castle_wk := B.castle_bk, castle_wq := B.castle_bq,
    castle_bk := B.castle_wk, castle_bq := B.castle_wq,
    ep_square := B.ep_square.map (fun s => s ^^^ 56),
    halfmove_clock := B.halfmove_clock,
    fullmove_number := B.fullmove_number }

/-! Notation layer.  Tokens are `List Char`; the relevant tokens are
ASCII, where Rust's byte-level scanning agrees with character-level
scanning.  Error values stay `String`, as in the Rust `Result<_, String>`.
-/

/-- Whitespace trim of a token (`str::trim`). -/
def trimTok (t : List Char) : List Char :=
  ((t.dropWhile Char.isWhitespace).reverse.dropWhile Char.isWhitespace).reverse

/-- Test `t.ends_with('.')`. -/
def endsWithDot (t : List Char) : Bool := t.getLast? == some '.'

/-- File letter of a square. -/
def fileChar (i : Nat) : Char := Char.ofNat (97 + file_of i)

/-- Rank digit of a square. -/
def rankChar (i : Nat) : Char := Char.ofNat (49 + rank_of i)

/-- Square parser (`fn parse_square`): a file letter `a`–`h` followed by a
rank digit `1`–`8`. -/
def parse_square (s : List Char) : Except String Nat :=
  if s.length ≠ 2 then Except.error ("Bad square '" ++ String.mk s ++ "'")
  else
    let b0 := s.getD 0 ' '
    let b1 := s.getD 1 ' '
    if ¬ ('a' ≤ b0 ∧ b0 ≤ 'h') ∨ ¬ ('1' ≤ b1 ∧ b1 ≤ '8') then
      Except.error ("Bad square '" ++ String.mk s ++ "'")
    else Except.ok (idx (b0.toNat - 97) (b1.toNat - 49))

/-- Castle-move construction (`fn build_castle`); the Rust function
returns `Result` but never errs. -/
def build_castle (B : Board) (kingside : Bool) : Move :=
  let ft : Nat × Nat :=
    match B.side with
    | White => if kingside then (idx 4 0, idx 6 0) else (idx 4 0, idx 2 0)
    | Black => if kingside then (idx 4 7, idx 6 7) else (idx 4 7, idx 2 7)
  ⟨ft.1, ft.2, none, false, false, kingside, !kingside⟩

/-- Coordinate-notation parser (`fn try_parse_uci_like`): `none` when the
token is not of the shape `<file><rank><file><rank>[promo]`; the Rust
return type is `Result<Option<Move>, String>` but no path errs. -/
def try_parse_uci_like (B : Board) (t : List Char) : Option Move :=
  if t.length < 4 then none
  else
    let sq_ok : Char → Char → Bool := fun f r =>
      'a' ≤ f && f ≤ 'h' && '1' ≤ r && r ≤ '8'
    if ¬ (sq_ok (t.getD 0 ' ') (t.getD 1 ' ') &&
          sq_ok (t.getD 2 ' ') (t.getD 3 ' ')) then none
    else
      let from_ := idx ((t.getD 0 ' ').toNat - 97) ((t.getD 1 ' ').toNat - 49)
      let to_ := idx ((t.getD 2 ' ').toNat - 97) ((t.getD 3 ' ').toNat - 49)
      let promo : Option Kind :=
        if t.length ≥ 5 then
          match t.getD 4 ' ' with
          | 'q' => some Queen
          | 'Q' => some Queen
          | 'r' => some Rook
          | 'R' => some Rook
          | 'b' => some Bishop
          | 'B' => some Bishop
          | 'n' => some Knight
          | 'N' => some Knight
          | _ => none
        else none
      let cap0 := (pieceAt B to_).isSome
      let ep_cap : Bool × Bool :=
        match pieceAt B from_ with
        | some p =>
          if p.kind = Pawn && !cap0 && some to_ == B.ep_square then (true, true)
          else (false, cap0)
        | none => (false, cap0)
      some ⟨from_, to_, promo, ep_cap.2, ep_cap.1, false, false⟩

/-- Unchecked geometric reachability (`fn naive_can_reach`). -/
def naive_can_reach (B : Board) (from_ to_ : Nat) (is_capture : Bool) : Bool :=
  if from_ = to_ then false
  else
    match pieceAt B from_ with
    | none => false
    | some me =>
      let friendly : Bool :=
        match pieceAt B to_ with
        | some dst => dst.color == me.color
        | none => false
      if friendly then false
      else
        match me.kind with
        | Knight =>
          let df := ((file_of from_ : Int) - (file_of to_ : Int)).natAbs
          let dr := ((rank_of from_ : Int) - (rank_of to_ : Int)).natAbs
          (df = 1 && dr = 2) || (df = 2 && dr = 1)
        | King =>
          let df := ((file_of from_ : Int) - (file_of to_ : Int)).natAbs
          let dr := ((rank_of from_ : Int) - (rank_of to_ : Int)).natAbs
          df ≤ 1 && dr ≤ 1
        | Bishop =>
          let df := (file_of to_ : Int) - (file_of from_ : Int)
          let dr := (rank_of to_ : Int) - (rank_of from_ : Int)
          if df.natAbs ≠ dr.natAbs ∨ df = 0 then false
          else line_clear B from_ to_ df.sign dr.sign
        | Rook =>
          let df := (file_of to_ : Int) - (file_of from_ : Int)
          let dr := (rank_of to_ : Int) - (rank_of from_ : Int)
          if ¬ (df = 0 ∨ dr = 0) then false
          else if df = 0 ∧ dr = 0 then false
          else line_clear B from_ to_ df.sign dr.sign
        | Queen =>
          let df := (file_of to_ : Int) - (file_of from_ : Int)
          let dr := (rank_of to_ : Int) - (rank_of from_ : Int)
          if ¬ (df = 0 ∨ dr = 0 ∨ df.natAbs = dr.natAbs) then false
          else line_clear B from_ to_ df.sign dr.sign
        | Pawn =>
          let dir : Int := if me.color = White then 1 else -1
          let df := (file_of to_ : Int) - (file_of from_ : Int)
          let dr := (rank_of to_ : Int) - (rank_of from_ : Int)
          if is_capture then
            dr == dir && df.natAbs == 1 &&
              ((pieceAt B to_).isSome || some to_ == B.ep_square)
          else
            if df == 0 && dr == dir && (pieceAt B to_).isNone then true
            else
              let start_rank : Nat := if me.color = White then 1 else 6
              if df == 0 && dr == 2 * dir && rank_of from_ == start_rank then
                let mid := to_idxN (file_of from_) ((rank_of from_ : Int) + dir)
                (pieceAt B mid).isNone && (pieceAt B to_).isNone
              else false

/-- Source squares of own pieces of `kind` that naively reach `to_`
(`fn generate_reach`). -/
def generate_reach (B : Board) (kind : Kind) (to_ : Nat) (is_capture : Bool) :
    List Nat :=
  (List.range 64).filter (fun i =>
    match pieceAt B i with
    | some p => p.color == B.side && p.kind == kind && naive_can_reach B i to_ is_capture
    | none => false)

/-- SAN parser (`fn parse_san_and_find_move`).  The outer `Option` models
the panic of `s.as_bytes()[eq + 1]` when `=` is the final character; the
`Except` carries the parse errors of the Rust code verbatim. -/
def parse_san_and_find_move (B : Board) (t : List Char) :
    Option (Except String Move) := do
  let s0 := t.filter (fun c => c ≠ '+' ∧ c ≠ '#')
  let s1 := (s0.reverse.dropWhile (fun c => c = '!' ∨ c = '?')).reverse
  let (promo, s2) ←
    match s1.findIdx? (fun c => c = '=') with
    | some eq =>
      match s1.drop (eq + 1) with
      | [] => none
      | p :: _ =>
        let pr : Option Kind :=
          match p with
          | 'Q' => some Queen
          | 'R' => some Rook
          | 'B' => some Bishop
          | 'N' => some Knight
          | _ => none
        some (pr, s1.take eq)
    | none => some ((none : Option Kind), s1)
  let is_capture := s2.contains 'x'
  let s_clean := s2.filter (fun c => c ≠ 'x')
  let kindRest : Except String (Kind × List Char) :=
    match s_clean.headD ' ' with
    | 'K' => Except.ok (King, s_clean.drop 1)
    | 'Q' => Except.ok (Queen, s_clean.drop 1)
    | 'R' => Except.ok (Rook, s_clean.drop 1)
    | 'B' => Except.ok (Bishop, s_clean.drop 1)
    | 'N' => Except.ok (Knight, s_clean.drop 1)
    | 'O' => Except.error ("Use O-O / O-O-O handled earlier")
    | '0' => Except.error ("Use O-O / O-O-O handled earlier")
    | _ => Except.ok (Pawn, s_clean)
  match kindRest with
  | Except.error e => some (Except.error e)
  | Except.ok (kind, rest) =>
    if rest.length < 2 then
      some (Except.error ("SAN too short: " ++ String.mk t))
    else
      match parse_square (rest.drop (rest.length - 2)) with
      | Except.error e => some (Except.error e)
      | Except.ok to_ =>
        let dis := rest.take (rest.length - 2)
        let dfr : Option Nat × Option Nat :=
          dis.foldl (fun (acc : Option Nat × Option Nat) ch =>
            if 'a' ≤ ch ∧ ch ≤ 'h' then (some (ch.toNat - 97), acc.2)
            else if '1' ≤ ch ∧ ch ≤ '8' then (acc.1, some (ch.toNat - 49))
            else acc) (none, none)
        let candidates := generate_reach B kind to_ is_capture
        let filtered := candidates.filter (fun sq_from =>
          (match dfr.1 with
           | some df => file_of sq_from == df
           | none => true) &&
          (match dfr.2 with
           | some dr => rank_of sq_from == dr
           | none => true))
        if filtered.isEmpty then
          some (Except.error
            ("No legal (naive) source found for SAN '" ++ String.mk t ++ "'"))
        else if filtered.length > 1 then
          some (Except.error
            ("Ambiguous SAN '" ++ String.mk t ++ "': need more disambiguation"))
        else
          let from_ := filtered.headD 0
          let is_ep := kind = Pawn ∧ is_capture ∧ (pieceAt B to_).isNone ∧
            some to_ = B.ep_square
          some (Except.ok ⟨from_, to_, promo, is_capture, is_ep, false, false⟩)

/-- Token interpreter and applier (`fn parse_and_play_token`).  The result
pairs the final board with `none` on success and the error message on
failure, so that the no-mutation-on-error behaviour is visible; the outer
`Option` marks the panic paths (an applied move whose source square is
empty, a castle with a missing king or rook, a `=`-final SAN token). -/
def parse_and_play_token (B : Board) (token : List Char) :
    Option (Board × Option String) :=
  let t := trimTok token
  if t = [] then some (B, none)
  else if t = ("1-0").data ∨ t = ("0-1").data ∨ t = ("1/2-1/2").data ∨
      t = ("*").data then some (B, none)
  else if endsWithDot t then some (B, none)
  else if t = ("O-O").data ∨ t = ("0-0").data then
    (make_move B (build_castle B true)).map (fun B' => (B', none))
  else if t = ("O-O-O").data ∨ t = ("0-0-0").data then
    (make_move B (build_castle B false)).map (fun B' => (B', none))
  else
    match try_parse_uci_like B t with
    | some mv => (make_move B mv).map (fun B' => (B', none))
    | none =>
      match parse_san_and_find_move B t with
      | none => none
      | some (Except.error e) => some (B, some e)
      | some (Except.ok mv) => (make_move B mv).map (fun B' => (B', none))

/-- SAN promotion letter; `none` models the `unreachable!()` panic for a
pawn or king promotion kind. -/
def promoChar (k : Kind) : Option Char :=
  match k with
  | Queen => some 'Q'
  | Rook => some 'R'
  | Bishop => some 'B'
  | Knight => some 'N'
  | _ => none

/-- SAN serialization of a move (`fn move_to_san`); `none` models the
panics (`unwrap` of an empty source square, `unreachable!()` letters). -/
def move_to_san (B : Board) (m : Move) : Option String := do
  if m.is_castle_kingside then some ("O-O")
  else if m.is_castle_queenside then some ("O-O-O")
  else do
    let piece ← pieceAt B m.from_
    let san0 : List Char :=
      match piece.kind with
      | Pawn => []
      | King => ['K']
      | Queen => ['Q']
      | Rook => ['R']
      | Bishop => ['B']
      | Knight => ['N']
    let similar_moves := (generate_legal_moves B).filter (fun o =>
      o.to_ == m.to_ &&
        ((pieceAt B o.from_).map Piece.kind == some piece.kind) &&
        o.from_ ≠ m.from_)
    let san1 :=
      if !similar_moves.isEmpty then
        let same_file := similar_moves.any (fun o => file_of o.from_ == file_of m.from_)
        if !same_file then san0 ++ [fileChar m.from_]
        else san0 ++ [rankChar m.from_]
      else san0
    let san2 :=
      if m.is_capture then
        (if piece.kind = Pawn ∧ san1.isEmpty then san1 ++ [fileChar m.from_]
         else san1) ++ ['x']
      else san1
    let san3 := san2 ++ [fileChar m.to_, rankChar m.to_]
    let san4 ←
      match m.promo with
      | some pk => (promoChar pk).map (fun c => san3 ++ ['=', c])
      | none => pure san3
    pure (String.mk san4)

/-- Replay a list of tokens from a board, as the driver loop does,
stopping with `none` on the first error or panic. -/
def replay (B : Board) : List (List Char) → Option Board
  | [] => some B
  | tok :: toks =>
    match parse_and_play_token B tok with
    | some (B', none) => replay B' toks
    | _ => none

/-! Concrete positions used by the theorems below. -/

/-- Build a board from an association list of occupied squares. -/
def mkB (ps : List (Nat × Piece)) (side : Color) (wk wq bk bq : Bool)
    (ep : Option Nat) (half full : Nat) : Board :=
  { sq := (List.range 64).map (fun i => ps.lookup i), side := side,
    castle_wk := wk, castle_wq := wq, castle_bk := bk, castle_bq := bq,
    ep_square := ep, halfmove_clock := half, fullmove_number := full }

/-- A token sequence accepted by `parse_and_play_token` from the start
position (coordinate tokens are applied without any legality or turn
checking, so captures may be arbitrary): it clears the board down to five
pieces, promoting the a-pawn to a knight. -/
def toksC2 : List (List Char) :=
  [("d1d8").data, ("d8c8").data, ("c8b8").data, ("b8b7").data, ("b7c7").data,
   ("c7d7").data, ("d7e7").data, ("e7f7").data, ("f7g7").data, ("g7h7").data,
   ("h7h8").data, ("h8g8").data, ("g8f8").data, ("a2a7").data, ("a7a8n").data,
   ("f8a1").data, ("a1c1").data, ("c1f1").data, ("f1h1").data, ("h1b2").data,
   ("b2c2").data, ("c2d2").data, ("d2e2").data, ("e2f2").data, ("f2g2").data,
   ("g2h2").data, ("h2h3").data, ("h3d1").data, ("g1b5").data, ("a8d1").data]

/-- The position reached by `toksC2`: white knights on b1, d1 and b5,
white king e1, black king e8, White to move. -/
def B2 : Board :=
  mkB [(1, ⟨Knight, White⟩), (3, ⟨Knight, White⟩), (4, ⟨King, White⟩),
       (33, ⟨Knight, White⟩), (60, ⟨King, Black⟩)]
    White false false false false none 0 16

/-- The legal knight move b1–c3 in `B2`. -/
def mvN : Move := ⟨1, 18, none, false, false, false, false⟩

/-- A small non-terminal position: white king e1 and pawn a2, black king
e8, White to move. -/
def B4 : Board :=
  mkB [(4, ⟨King, White⟩), (8, ⟨Pawn, White⟩), (60, ⟨King, Black⟩)]
    White false false false false none 0 1

/-- The pawn move a2–a3 in `B4`. -/
def mvA : Move := ⟨8, 16, none, false, false, false, false⟩

/-- The king move e1–d1 in `B4` (the first generated legal move). -/
def mvK : Move := ⟨4, 3, none, false, false, false, false⟩

/-- A board without any piece: the side to move has no king and also no
move. -/
def Bempty : Board := mkB [] White false false false false none 0 1

/-- A lone white pawn on e6. -/
def B7 : Board := mkB [(44, ⟨Pawn, White⟩)] White false false false false none 0 1

/-- The promoting double-rank pawn move e6–e8=Q. -/
def m7 : Move := ⟨44, 60, some Queen, false, false, false, false⟩

/-- A lone white pawn on e2 (witness board for the en-passant rule). -/
def B7w : Board := mkB [(12, ⟨Pawn, White⟩)] White false false false false none 0 1

/-- The double push e2–e4. -/
def mE2E4 : Move := ⟨12, 28, none, false, false, false, false⟩

/-- The board after `mE2E4` on `B7w`. -/
def B7w' : Board := mkB [(28, ⟨Pawn, White⟩)] Black false false false false (some 20) 0 1

/-- A pin position: white king e1, white rook e2, black king a8, black
rook e8; the white rook is pinned to the king. -/
def Bpin : Board :=
  mkB [(4, ⟨King, White⟩), (12, ⟨Rook, White⟩), (56, ⟨King, Black⟩),
       (60, ⟨Rook, Black⟩)]
    White false false false false none 0 1

/-- The pseudo-legal but illegal rook move e2–d2 in `Bpin`. -/
def mPin : Move := ⟨12, 11, none, false, false, false, false⟩

/-- The board after `mPin` on `Bpin`. -/
def BpinAfter : Board :=
  mkB [(4, ⟨King, White⟩), (11, ⟨Rook, White⟩), (56, ⟨King, Black⟩),
       (60, ⟨Rook, Black⟩)]
    Black false false false false none 1 1

/-- A castling-ready position: white king e1, white rooks a1 and h1 with
both white rights, black king e8. -/
def B9 : Board :=
  mkB [(0, ⟨Rook, White⟩), (4, ⟨King, White⟩), (7, ⟨Rook, White⟩),
       (60, ⟨King, Black⟩)]
    White true true false false none 0 1

/-- The generated kingside castle in `B9`. -/
def mv9 : Move := ⟨4, 6, none, false, false, true, false⟩

/-- The coordinate move d1–h5 (illegal for the queen at the start
position). -/
def mvD1h5 : Move := ⟨3, 39, none, false, false, false, false⟩

/-! Theorems. -/

/-- C2: the SAN round trip fails on a reachable position.  `toksC2` is
accepted token by token from the start position and yields `B2` (white
knights b1, d1, b5); the knight move b1–c3 is legal there, serializes to
`N1c3` (rank disambiguation, because another candidate shares the b-file),
and re-parsing `N1c3` against the same position errs as ambiguous, since
two candidate knights stand on rank 1. -/
theorem san_round_trip_failure :
    replay Board.new toksC2 = some B2 ∧
    mvN ∈ generate_legal_moves B2 ∧
    move_to_san B2 mvN = some ("N1c3") ∧
    parse_san_and_find_move B2 (("N1c3").data) =
      some (Except.error ("Ambiguous SAN 'N1c3': need more disambiguation")) :=
  ⟨by decide, by decide, by decide, by decide⟩

/-- C3: both evaluation strategies on the start position and its
color-swapped rank-mirror.  The classic strategy scores both 0 as claimed,
but the advanced strategy scores the start position 30 (not 0) and its
mirror 30 (not −30): the endgame flag is taken from the running piece
count, so the white king (5th piece scanned) is scored with the endgame
table while the black king (29th) gets the middlegame table. -/
theorem evaluation_symmetry_failure :
    evaluate_classic Board.new = 0 ∧
    evaluate_classic (mirrorBoard Board.new) = -(evaluate_classic Board.new) ∧
    evaluate_advanced Board.new = 30 ∧
    evaluate_advanced (mirrorBoard Board.new) = 30 ∧
    ¬ evaluate_advanced (mirrorBoard Board.new) = -(evaluate_advanced Board.new) :=
  ⟨by decide, by decide, by decide, by decide, by decide⟩

/-- C4: at depth zero on the non-terminal position `B4`, `minimax` returns
the board's built-in material sum (1), not the value of the dispatching
evaluation of `evaluate.rs` under its default Advanced mode (150): the
search never consults the evaluator-mode switch. -/
theorem minimax_scores_with_builtin_eval :
    is_game_over B4 = false ∧
    (minimax 0 B4 true (fun _ => false) 0).1 = some (Board.evaluate B4) ∧
    Board.evaluate B4 = 1 ∧
    evaluate_mode 0 B4 = 150 ∧
    evaluate_classic B4 = 1 :=
  ⟨by decide, by decide, by decide, by decide, by decide⟩

/-- C5 counterexample: the claim fails at the start position.  The token
`d1h5` denotes a move that is not legal there, yet `parse_and_play_token`
applies it (no error, board mutated); and the tokens `O-O#` and `0-0-0!`
both fail with the same fixed error string, which does not carry the
offending token text. -/
theorem parse_play_error_claim_cex :
    (parse_and_play_token Board.new (("d1h5").data)).map Prod.snd = some none ∧
    ¬ (parse_and_play_token Board.new (("d1h5").data)).map Prod.fst =
        some Board.new ∧
    ¬ mvD1h5 ∈ generate_legal_moves Board.new ∧
    parse_and_play_token Board.new (("O-O#").data) =
      some (Board.new, some ("Use O-O / O-O-O handled earlier")) ∧
    parse_and_play_token Board.new (("0-0-0!").data) =
      some (Board.new, some ("Use O-O / O-O-O handled earlier")) :=
  ⟨by decide, by decide, by decide, by decide, by decide⟩

/-- C6 counterexample: on the empty board (the side to move has no king —
such boards are constructible through the unvalidated coordinate token
path, which allows capturing a king) legal-move generation is empty while
`is_game_over` is false, refuting the claimed equivalence. -/
theorem game_over_iff_cex :
    generate_legal_moves Bempty = [] ∧ is_game_over Bempty = false :=
  ⟨by decide, by decide⟩

/-- C7 counterexample: on `B7` the applied move is a pawn advancing
exactly two ranks (e6–e8) carrying a promotion, and after `make_move` the
en-passant target is null, not the skipped square e7 (52): the promotion
overwrites the local piece kind before the en-passant update reads it. -/
theorem ep_after_promo_push_cex :
    pieceAt B7 m7.from_ = some ⟨Pawn, White⟩ ∧
    rank_of m7.from_ = 5 ∧ rank_of m7.to_ = 7 ∧
    (make_move B7 m7).map Board.ep_square = some none ∧
    ¬ (make_move B7 m7).map Board.ep_square = some (some 52) :=
  ⟨by decide, by decide, by decide, by decide, by decide⟩

/-- C1: legality closure.  Every move returned by `generate_legal_moves`
can be applied and leaves the mover's king present and unattacked by the
opponent; every pseudo-legal move excluded by the filter leaves the king —
whenever the move applies and the king is found afterwards — attacked.
(Exclusions in which the application panics or the king is missing carry
no safety content; the Rust filter treats them as illegal.) -/
theorem legality_closure (B : Board) (m : Move) :
    (m ∈ generate_legal_moves B →
      ∃ B' k, make_move B m = some B' ∧ find_king B' B.side = some k ∧
        is_square_attacked B' k (other B.side) = false) ∧
    (m ∈ generate_pseudo_moves B → m ∉ generate_legal_moves B →
      ∀ B' k, make_move B m = some B' → find_king B' B.side = some k →
        is_square_attacked B' k (other B.side) = true) := by
  constructor
  · intro hmem
    have hleg : is_legal_move B m = true :=
      (List.mem_filter.mp hmem).2
    unfold is_legal_move at hleg
    cases hmm : make_move B m with
    | none => rw [hmm] at hleg; exact absurd hleg (by simp)
    | some B' =>
      rw [hmm] at hleg
      dsimp only at hleg
      cases hk : find_king B' B.side with
      | none => rw [hk] at hleg; exact absurd hleg (by simp)
      | some k =>
        rw [hk] at hleg
        exact ⟨B', k, rfl, hk, by simpa using hleg⟩
  · intro hps hnot B' k hmm hk
    have hleg : is_legal_move B m = false := by
      cases hcase : is_legal_move B m with
      | true => exact absurd (List.mem_filter.mpr ⟨hps, hcase⟩) hnot
      | false => rfl
    unfold is_legal_move at hleg
    rw [hmm] at hleg
    dsimp only at hleg
    rw [hk] at hleg
    simpa using hleg

/-- C1 witness: in `B4` the pawn push a2–a3 is legal and leaves the white
king safe; in `Bpin` the rook move e2–d2 is pseudo-legal but excluded, and
playing it leaves the white king on e1 attacked by the rook on e8. -/
theorem legality_closure_witness :
    (∃ B' k, make_move B4 mvA = some B' ∧ find_king B' B4.side = some k ∧
      is_square_attacked B' k (other B4.side) = false) ∧
    is_square_attacked BpinAfter 4 (other Bpin.side) = true :=
  ⟨(legality_closure B4 mvA).1 (by decide),
   (legality_closure Bpin mPin).2 (by decide) (by decide) BpinAfter 4
     (by decide) (by decide)⟩

/-- C6 amended: checkmate and stalemate are never simultaneously true,
and on every position where the side to move has a king on the board,
`is_game_over` holds exactly when legal-move generation is empty. -/
theorem mate_exclusive_game_over_iff (B : Board) :
    (is_checkmate B && is_stalemate B) = false ∧
    ((∃ k, find_king B B.side = some k) →
      (is_game_over B = true ↔ generate_legal_moves B = [])) := by
  constructor
  · unfold is_checkmate is_stalemate
    cases hk : find_king B B.side with
    | none => simp
    | some k =>
      cases hatt : is_square_attacked B k (other B.side) <;> simp [hatt]
  · rintro ⟨k, hk⟩
    unfold is_game_over is_checkmate is_stalemate
    rw [hk]
    cases hatt : is_square_attacked B k (other B.side) <;>
      simp [hatt, List.isEmpty_iff]

/-- C6 witness: on the start position (the white king is on e1) the
equivalence holds and the two mate predicates are not simultaneously
true. -/
theorem mate_exclusive_game_over_iff_witness :
    (is_checkmate Board.new && is_stalemate Board.new) = false ∧
    (is_game_over Board.new = true ↔ generate_legal_moves Board.new = []) :=
  ⟨(mate_exclusive_game_over_iff Board.new).1,
   (mate_exclusive_game_over_iff Board.new).2 ⟨4, by decide⟩⟩

/-- C5 amended: whenever `parse_and_play_token` returns an error, the
board is completely unmodified (all squares, side to move, castling
rights, en-passant target and both counters).  Errors come only from the
SAN path; parseable castle, coordinate, and unambiguous naive-SAN tokens
are applied without any legality check. -/
theorem parse_play_error_no_mutation (B : Board) (token : List Char)
    (B' : Board) (e : String)
    (h : parse_and_play_token B token = some (B', some e)) : B' = B := by
  unfold parse_and_play_token at h
  by_cases h0 : trimTok token = []
  · rw [if_pos h0] at h; simp at h
  rw [if_neg h0] at h
  by_cases h1 : trimTok token = ("1-0").data ∨ trimTok token = ("0-1").data ∨
      trimTok token = ("1/2-1/2").data ∨ trimTok token = ("*").data
  · rw [if_pos h1] at h; simp at h
  rw [if_neg h1] at h
  by_cases h2 : endsWithDot (trimTok token) = true
  · rw [if_pos h2] at h; simp at h
  rw [if_neg h2] at h
  by_cases h3 : trimTok token = ("O-O").data ∨ trimTok token = ("0-0").data
  · rw [if_pos h3] at h; simp [Option.map_eq_some'] at h
  rw [if_neg h3] at h
  by_cases h4 : trimTok token = ("O-O-O").data ∨ trimTok token = ("0-0-0").data
  · rw [if_pos h4] at h; simp [Option.map_eq_some'] at h
  rw [if_neg h4] at h
  cases hu : try_parse_uci_like B (trimTok token) with
  | some mv => rw [hu] at h; simp [Option.map_eq_some'] at h
  | none =>
    rw [hu] at h
    cases hs : parse_san_and_find_move B (trimTok token) with
    | none => rw [hs] at h; simp at h
    | some r =>
      rw [hs] at h
      cases r with
      | error e' => simp at h; exact h.1.symm
      | ok mv => simp [Option.map_eq_some'] at h

/-- C5 witness: the SAN token `Nc6` fails on the start position (no white
knight reaches c6) and the position it hands back is the unmodified start
position. -/
theorem parse_play_error_no_mutation_witness :
    parse_and_play_token Board.new (("Nc6").data) =
      some (Board.new, some ("No legal (naive) source found for SAN 'Nc6'")) ∧
    Board.new = Board.new :=
  ⟨by decide,
   parse_play_error_no_mutation Board.new (("Nc6").data) Board.new
     ("No legal (naive) source found for SAN 'Nc6'") (by decide)⟩

/-- C7 amended: after a successful `make_move` from a square holding a
piece, the en-passant target is non-null iff the moved piece — with its
kind replaced by the promotion kind when one is specified — is a pawn
whose source and destination ranks differ by exactly two; it is then the
square on the source file between the two ranks, and null otherwise. -/
theorem ep_square_after_make_move (B : Board) (m : Move) (p : Piece)
    (B' : Board) (h1 : pieceAt B m.from_ = some p)
    (h2 : make_move B m = some B') :
    B'.ep_square =
      (if (match m.promo with
           | some pk => pk
           | none => p.kind) = Pawn then
        if ((rank_of m.from_ : Int) - (rank_of m.to_ : Int)).natAbs = 2 then
          some (to_idxN (file_of m.from_)
            (((rank_of m.from_ : Int) + (rank_of m.to_ : Int)) / 2))
        else none
      else none) := by
  unfold make_move at h2
  rw [h1] at h2
  dsimp only at h2
  obtain ⟨B2, hB2, h2⟩ := Option.map_eq_some'.mp h2
  rw [← h2]
  cases h2' : m.promo with
  | none => simp [updateMeta]
  | some pk => simp [updateMeta]

/-- C7 witness: on a board with a single white pawn on e2, the double
push e2–e4 applies and sets the en-passant target to e3 (square 20). -/
theorem ep_square_after_make_move_witness :
    make_move B7w mE2E4 = some B7w' ∧ B7w'.ep_square = some 20 :=
  ⟨by decide,
   (ep_square_after_make_move B7w mE2E4 ⟨Pawn, White⟩ B7w'
     (by decide) (by decide)).trans (by decide)⟩

/-- C10: a token whose trim is empty, a game-result literal, or anything
ending in a period is skipped: `parse_and_play_token` returns `Ok` and
hands back the identical board. -/
theorem skip_tokens_no_op (B : Board) (token : List Char)
    (h : trimTok token = [] ∨ trimTok token = ("1-0").data ∨
      trimTok token = ("0-1").data ∨ trimTok token = ("1/2-1/2").data ∨
      trimTok token = ("*").data ∨ endsWithDot (trimTok token) = true) :
    parse_and_play_token B token = some (B, none) := by
  unfold parse_and_play_token
  rcases h with h | h | h | h | h | h
  · simp [h]
  · simp [h]
  · simp [h]
  · simp [h]
  · simp [h]
  · have hne : ¬ trimTok token = [] := by
      intro hz
      rw [hz] at h
      exact absurd h (by decide)
    rw [if_neg hne]
    by_cases h1 : trimTok token = ("1-0").data ∨ trimTok token = ("0-1").data ∨
        trimTok token = ("1/2-1/2").data ∨ trimTok token = ("*").data
    · rw [if_pos h1]
    · rw [if_neg h1, if_pos h]

/-- C10 witness: the token `e4.` (a well-formed move followed by a
period) is skipped on the start position. -/
theorem skip_tokens_no_op_witness :
    parse_and_play_token Board.new (("e4.").data) = some (Board.new, none) :=
  skip_tokens_no_op Board.new (("e4.").data) (by decide)

/-- The root-move loop only ever answers with a move from the legal list
it was started on. -/
lemma sadFold_mem (B : Board) (depth : Nat) (maximizing : Bool)
    (t : Nat → Bool) :
    ∀ (ms : List Move) (best : Move) (ev : Int) (tick : Nat) (r : Move)
      (tk : Nat),
      (∀ x ∈ ms, x ∈ generate_legal_moves B) →
      best ∈ generate_legal_moves B →
      sadFold B depth maximizing t ms best ev tick = (some r, tk) →
      r ∈ generate_legal_moves B := by
  intro ms
  induction ms with
  | nil =>
    intro best ev tick r tk _ hbest h
    unfold sadFold at h
    simp only [Prod.mk.injEq, Option.some.injEq] at h
    rw [← h.1]
    exact hbest
  | cons m rest ih =>
    intro best ev tick r tk hall hbest h
    unfold sadFold at h
    split at h
    · simp at h
    · split at h
      · simp at h
      · split at h
        · simp at h
        · split at h
          · exact ih _ _ _ _ _ (fun x hx => hall x (List.mem_cons_of_mem m hx))
              (hall m (List.mem_cons_self m rest)) h
          · split at h
            · exact ih _ _ _ _ _ (fun x hx => hall x (List.mem_cons_of_mem m hx))
                (hall m (List.mem_cons_self m rest)) h
            · exact ih _ _ _ _ _ (fun x hx => hall x (List.mem_cons_of_mem m hx))
                hbest h

/-- A completed fixed-depth search answers with a legal move. -/
lemma search_at_depth_mem (B : Board) (depth : Nat) (t : Nat → Bool)
    (tick : Nat) (r : Move) (tk : Nat)
    (h : search_at_depth B depth t tick = (some r, tk)) :
    r ∈ generate_legal_moves B := by
  unfold search_at_depth at h
  cases hg : generate_legal_moves B with
  | nil => rw [hg] at h; simp at h
  | cons m0 ms =>
    rw [hg] at h
    exact hg ▸ sadFold_mem B depth (B.side = White) t (m0 :: ms) m0 _ tick r tk
      (fun x hx => hg ▸ hx) (hg ▸ List.mem_cons_self m0 ms) h

/-- The iterative-deepening loop preserves legality of the running best
move. -/
lemma fbmLoop_mem (B : Board) (t : Nat → Bool) :
    ∀ (fuel : Nat) (best : Move) (depth tick : Nat),
      best ∈ generate_legal_moves B →
      fbmLoop B t fuel best depth tick ∈ generate_legal_moves B := by
  intro fuel
  induction fuel with
  | zero => intro best depth tick hbest; exact hbest
  | succ n ih =>
    intro best depth tick hbest
    unfold fbmLoop
    cases hs : search_at_depth B depth t tick with
    | mk o tk =>
      cases o with
      | none => exact hbest
      | some r =>
        have hr : r ∈ generate_legal_moves B := search_at_depth_mem B depth t tick r tk hs
        by_cases ht : t tk
        · simpa [ht] using hr
        · simpa [ht] using ih r (depth + 1) (tk + 1) hr

/-- C8: for every position, every deadline oracle, every starting tick and
every iteration budget, `find_best_move` returns `none` exactly when the
position has no legal move — a deadline, however early, never turns into
an error — and any move it returns is legal. -/
theorem find_best_move_total (B : Board) (t : Nat → Bool) (tick fuel : Nat) :
    (find_best_move B t tick fuel = none ↔ generate_legal_moves B = []) ∧
    (∀ m, find_best_move B t tick fuel = some m → m ∈ generate_legal_moves B) := by
  unfold find_best_move
  cases hg : generate_legal_moves B with
  | nil => exact ⟨by simp, by simp⟩
  | cons m0 ms =>
    constructor
    · simp
    · intro m hm
      simp only [Option.some.injEq] at hm
      rw [← hm]
      exact hg ▸ fbmLoop_mem B t fuel m0 1 tick (hg ▸ List.mem_cons_self m0 ms)

/-- C8 witness: on `B4` with an already-expired deadline (`t` constantly
true) the search still returns a move, and that move is legal. -/
theorem find_best_move_total_witness :
    find_best_move B4 (fun _ => true) 0 5 = some mvK ∧
    mvK ∈ generate_legal_moves B4 :=
  ⟨by decide,
   (find_best_move_total B4 (fun _ => true) 0 5).2 mvK (by decide)⟩

/-- The plain one-step king moves never carry a castle flag. -/
lemma kingStepMoves_no_castle (B : Board) (from_ : Nat) (m : Move)
    (h : m ∈ kingStepMoves B from_) :
    m.is_castle_kingside = false ∧ m.is_castle_queenside = false := by
  unfold kingStepMoves at h
  simp only [List.mem_flatMap] at h
  obtain ⟨d, _, hm⟩ := h
  split at hm
  · split at hm
    · split at hm
      · simp only [List.mem_singleton] at hm
        rw [hm]
        exact ⟨rfl, rfl⟩
      · simp at hm
    · simp only [List.mem_singleton] at hm
      rw [hm]
      exact ⟨rfl, rfl⟩
  · simp at hm

/-- C9: a castle emitted by king-move generation certifies, already at
generation time, the full castling precondition: the side to move holds
the corresponding right, the in-between squares (f, g kingside; b, c, d
queenside) are empty, and the king's start, transit and destination
squares on the back rank (e, f, g kingside; c, d, e queenside) are
unattacked by the opponent. -/
theorem castle_generation_conditions (B : Board) (from_ : Nat) (m : Move)
    (h : m ∈ generate_king_moves B from_) :
    (m.is_castle_kingside = true →
      let rank := if B.side = White then 0 else 7
      (if B.side = White then B.castle_wk else B.castle_bk) = true ∧
      pieceAt B (idx 5 rank) = none ∧ pieceAt B (idx 6 rank) = none ∧
      is_square_attacked B (idx 4 rank) (other B.side) = false ∧
      is_square_attacked B (idx 5 rank) (other B.side) = false ∧
      is_square_attacked B (idx 6 rank) (other B.side) = false) ∧
    (m.is_castle_queenside = true →
      let rank := if B.side = White then 0 else 7
      (if B.side = White then B.castle_wq else B.castle_bq) = true ∧
      pieceAt B (idx 1 rank) = none ∧ pieceAt B (idx 2 rank) = none ∧
      pieceAt B (idx 3 rank) = none ∧
      is_square_attacked B (idx 2 rank) (other B.side) = false ∧
      is_square_attacked B (idx 3 rank) (other B.side) = false ∧
      is_square_attacked B (idx 4 rank) (other B.side) = false) := by
  unfold generate_king_moves at h
  rw [List.mem_append] at h
  rcases h with h | h
  · obtain ⟨hk, hq⟩ := kingStepMoves_no_castle B from_ m h
    exact ⟨fun hc => absurd hc (by rw [hk]; simp),
           fun hc => absurd hc (by rw [hq]; simp)⟩
  · by_cases hw : B.side = White
    · rw [if_pos hw] at h
      rw [List.mem_append] at h
      rcases h with h | h
      · split at h
        next hguard =>
          simp only [List.mem_singleton] at h
          rw [Bool.and_eq_true] at hguard
          have hcc := hguard.2
          unfold can_castle_kingside at hcc
          rw [if_pos rfl] at hcc
          simp only [Bool.and_eq_true, Bool.not_eq_true',
            Option.isNone_iff_eq_none] at hcc
          refine ⟨fun _ => ?_, fun hc => ?_⟩
          · simp only [hw, if_pos]
            exact ⟨hguard.1, hcc.1.1.1.1, hcc.1.1.1.2, hcc.1.1.2,
              hcc.1.2, hcc.2⟩
          · rw [h] at hc
            exact absurd hc (by simp)
        next => simp at h
      · split at h
        next hguard =>
          simp only [List.mem_singleton] at h
          rw [Bool.and_eq_true] at hguard
          have hcc := hguard.2
          unfold can_castle_queenside at hcc
          rw [if_pos rfl] at hcc
          simp only [Bool.and_eq_true, Bool.not_eq_true',
            Option.isNone_iff_eq_none] at hcc
          refine ⟨fun hc => ?_, fun _ => ?_⟩
          · rw [h] at hc
            exact absurd hc (by simp)
          · simp only [hw, if_pos]
            exact ⟨hguard.1, hcc.1.1.1.1.1, hcc.1.1.1.1.2, hcc.1.1.1.2,
              hcc.1.1.2, hcc.1.2, hcc.2⟩
        next => simp at h
    · rw [if_neg hw] at h
      have hb : B.side = Black := by
        cases hside : B.side
        · exact absurd hside hw
        · rfl
      rw [List.mem_append] at h
      rcases h with h | h
      · split at h
        next hguard =>
          simp only [List.mem_singleton] at h
          rw [Bool.and_eq_true] at hguard
          have hcc := hguard.2
          unfold can_castle_kingside at hcc
          rw [if_neg (by decide)] at hcc
          simp only [Bool.and_eq_true, Bool.not_eq_true',
            Option.isNone_iff_eq_none] at hcc
          refine ⟨fun _ => ?_, fun hc => ?_⟩
          · simp only [hb, reduceIte]
            exact ⟨hguard.1, hcc.1.1.1.1, hcc.1.1.1.2, hcc.1.1.2,
              hcc.1.2, hcc.2⟩
          · rw [h] at hc
            exact absurd hc (by simp)
        next => simp at h
      · split at h
        next hguard =>
          simp only [List.mem_singleton] at h
          rw [Bool.and_eq_true] at hguard
          have hcc := hguard.2
          unfold can_castle_queenside at hcc
          rw [if_neg (by decide)] at hcc
          simp only [Bool.and_eq_true, Bool.not_eq_true',
            Option.isNone_iff_eq_none] at hcc
          refine ⟨fun hc => ?_, fun _ => ?_⟩
          · rw [h] at hc
            exact absurd hc (by simp)
          · simp only [hb, reduceIte]
            exact ⟨hguard.1, hcc.1.1.1.1.1, hcc.1.1.1.1.2, hcc.1.1.1.2,
              hcc.1.1.2, hcc.1.2, hcc.2⟩
        next => simp at h

/-- C9 witness: in `B9` (king e1, rooks a1/h1, both white rights) the
kingside castle is generated, and the theorem yields the full emptiness
and safety certificate. -/
theorem castle_generation_conditions_witness :
    (if B9.side = White then B9.castle_wk else B9.castle_bk) = true ∧
    pieceAt B9 (idx 5 (if B9.side = White then 0 else 7)) = none ∧
    pieceAt B9 (idx 6 (if B9.side = White then 0 else 7)) = none ∧
    is_square_attacked B9 (idx 4 (if B9.side = White then 0 else 7))
      (other B9.side) = false ∧
    is_square_attacked B9 (idx 5 (if B9.side = White then 0 else 7))
      (other B9.side) = false ∧
    is_square_attacked B9 (idx 6 (if B9.side = White then 0 else 7))
      (other B9.side) = false :=
  (castle_generation_conditions B9 4 mv9 (by decide)).1 (by decide)

end Chess
